import Mathlib

/-!
Shallow embedding of the `playwright-testing-agent` repository.

The repository contains two near-identical "UI testing agent" variants:
- a Cypress-oriented script compiler (`testing-agent-cypress.js`,
  class `UITestingAgent`): pure string templating of Cypress statements
  from declarative actions, plus an HTML/JSON report renderer over the
  runner's aggregate totals;
- a Playwright direct-driver variant (`src/unnamed/part_002`, class
  `UITestingAgent`): drives a live page, accumulating `TestResult`
  records, plus a report renderer over that flat result list;
- a route/viewport screenshot report generator (`src/unnamed/part_000`,
  class `CypressTestAgent.generateReport`).

JavaScript strings are modelled as Lean `String` (a list of `Char`);
the handful of JS string primitives the code uses (`split`, `includes`,
`startsWith`, `endsWith`, `replace(/\s+/g, '_')`, `toLowerCase`,
`path.basename`) are given explicit executable definitions below.
JS objects iterated with `Object.entries` / `for ... in` are modelled as
association lists in insertion order, which is the iteration order
JavaScript guarantees for non-index string keys.  Numbers that the code
only ever uses as counts are modelled as `Nat`; the one floating-point
expression that matters (a pass-rate `Math.round`) is modelled over `ℚ`
with `Option` capturing the `NaN` produced by `0 / 0`.
-/

namespace TestingAgent

/-- JS `String.prototype.split` with a single-character separator,
on character lists: accumulates the current segment and cuts at each
occurrence of the separator. -/
def splitCharAux (c : Char) : List Char → List Char → List (List Char)
  | [], acc => [acc.reverse]
  | x :: xs, acc =>
      if x = c then acc.reverse :: splitCharAux c xs []
      else splitCharAux c xs (x :: acc)

/-- JS `s.split(c)` for a one-character separator `c`. -/
def jsSplitChar (s : String) (c : Char) : List String :=
  (splitCharAux c s.data []).map (fun cs => String.mk cs)

/-- Substring test on character lists: `sub` occurs contiguously in the
second list. -/
def listHasInfix (sub : List Char) : List Char → Bool
  | [] => sub.isEmpty
  | x :: xs => sub.isPrefixOf (x :: xs) || listHasInfix sub xs

/-- JS `s.includes(sub)`. -/
def jsIncludes (s sub : String) : Bool :=
  listHasInfix sub.data s.data

/-- JS `s.startsWith(p)`. -/
def jsStartsWith (s p : String) : Bool :=
  p.data.isPrefixOf s.data

/-- JS `s.endsWith(suf)`. -/
def jsEndsWith (s suf : String) : Bool :=
  suf.data.reverse.isPrefixOf s.data.reverse

/-- Drop the last `n` characters of a string. -/
def strDropRight (s : String) (n : Nat) : String :=
  String.mk (s.data.take (s.data.length - n))

/-- JS `s.toLowerCase()`, modelled for the ASCII range the repository
uses (Lean core `Char.toLower`). -/
def jsToLowerCase (s : String) : String :=
  String.mk (s.data.map Char.toLower)

/-- The whitespace class of the JS regex `\s`, modelled for the ASCII
whitespace characters (space, tab, newline, carriage return, vertical
tab, form feed). -/
def jsIsWhitespace (c : Char) : Bool :=
  c = ' ' || c = '\t' || c = '\n' || c = '\r' || c = '\x0b' || c = '\x0c'

/-- JS `s.replace(/\s+/g, '_')` on character lists: every maximal run
of whitespace becomes a single underscore.  `prevWs` records whether the
previous character was part of a whitespace run. -/
def replaceWsRunsAux (prevWs : Bool) : List Char → List Char
  | [] => []
  | c :: rest =>
      if jsIsWhitespace c then
        (if prevWs then [] else ['_']) ++ replaceWsRunsAux true rest
      else c :: replaceWsRunsAux false rest

/-- JS `s.replace(/\s+/g, '_')`. -/
def replaceWsRuns (s : String) : String :=
  String.mk (replaceWsRunsAux false s.data)

/-- JS destructuring `const [a, b] = s.split('=')`: the first segment,
and the second segment when present (`none` models `undefined`). -/
def jsSplitEq (s : String) : String × Option String :=
  match jsSplitChar s '=' with
  | [] => ("", none)
  | [a] => (a, none)
  | a :: b :: _ => (a, some b)

/-- JS template interpolation of a possibly-`undefined` value: `none`
renders as the string `undefined`. -/
def jsUndef (o : Option String) : String :=
  o.getD "undefined"

/-! ## Cypress variant (`testing-agent-cypress.js`, class `UITestingAgent`) -/

/-- One entry of `this.testResults` pushed by `generateElementTest`
(lines 124-129 of `testing-agent-cypress.js`). -/
structure CyResult where
  selector : String
  testType : String
  expected : String
  testAction : String
deriving DecidableEq

/-- The assertion kinds recognized by the `switch` of
`generateElementTest` (lines 85-122). -/
def supportedTestTypes : List String :=
  ["exists", "text", "attribute", "clickable", "visible", "count",
   "containsText", "cssProperty"]

/-- The `switch (testType)` of `generateElementTest` (lines 85-122):
computes the statement text `testAction`, or throws
`Unknown test type: ...` on the `default` branch. -/
def elementTestAction (selector testType expectedValue : String) :
    Except String String :=
  match testType with
  | "exists" =>
      Except.ok ("cy.get(\x27" ++ selector ++ "\x27).should(\x27exist\x27)")
  | "text" =>
      Except.ok ("cy.get(\x27" ++ selector ++ "\x27).should(\x27have.text\x27, \x27"
        ++ expectedValue ++ "\x27)")
  | "attribute" =>
      let p := jsSplitEq expectedValue
      Except.ok ("cy.get(\x27" ++ selector ++ "\x27).should(\x27have.attr\x27, \x27"
        ++ p.1 ++ "\x27, \x27" ++ jsUndef p.2 ++ "\x27)")
  | "clickable" =>
      Except.ok ("cy.get(\x27" ++ selector ++ "\x27).click()")
  | "visible" =>
      Except.ok ("cy.get(\x27" ++ selector ++ "\x27).should(\x27be.visible\x27)")
  | "count" =>
      Except.ok ("cy.get(\x27" ++ selector ++ "\x27).should(\x27have.length\x27, "
        ++ expectedValue ++ ")")
  | "containsText" =>
      Except.ok ("cy.get(\x27" ++ selector ++ "\x27).should(\x27contain\x27, \x27"
        ++ expectedValue ++ "\x27)")
  | "cssProperty" =>
      let p := jsSplitEq expectedValue
      Except.ok ("cy.get(\x27" ++ selector ++ "\x27).should(\x27have.css\x27, \x27"
        ++ p.1 ++ "\x27, \x27" ++ jsUndef p.2 ++ "\x27)")
  | _ => Except.error ("Unknown test type: " ++ testType)

/-- `generateElementTest` (lines 82-132): the `switch` either throws
(so the trailing `this.testResults.push` never runs and the caller sees
the exception with `testResults` unchanged) or computes `testAction`,
appends one result entry, and returns the statement.  The mutable
`this.testResults` is threaded explicitly. -/
def generateElementTest (selector testType expectedValue : String)
    (testResults : List CyResult) :
    Except String (String × List CyResult) :=
  match elementTestAction selector testType expectedValue with
  | Except.error e => Except.error e
  | Except.ok testAction =>
      Except.ok (testAction,
        testResults ++ [⟨selector, testType, expectedValue, testAction⟩])

/-- `generateNavigationAction` (lines 134-137): computes `fullUrl` but
emits the statement from the raw `url` argument. -/
def generateNavigationAction (baseUrl url : String) : String :=
  let fullUrl := if jsStartsWith url "http" then url else baseUrl ++ url
  "cy.visit(\x27" ++ url ++ "\x27)"

/-- A JS value stored in a `formData` mapping: the code distinguishes
booleans (`typeof value === 'boolean'`) from everything else, which it
interpolates as a string. -/
inductive FormValue where
  | bool (b : Bool)
  | str (s : String)
deriving DecidableEq

/-- The loop body of `generateFormFillAction` (lines 142-154): the
single statement pushed for one `(selector, value)` field. -/
def fieldFillStatement (selector : String) (value : FormValue) : String :=
  match value with
  | FormValue.bool true => "cy.get(\x27" ++ selector ++ "\x27).check()"
  | FormValue.bool false => "cy.get(\x27" ++ selector ++ "\x27).uncheck()"
  | FormValue.str v =>
      if jsIncludes selector "select" then
        "cy.get(\x27" ++ selector ++ "\x27).select(\x27" ++ v ++ "\x27)"
      else
        "cy.get(\x27" ++ selector ++ "\x27).clear().type(\x27" ++ v ++ "\x27)"

/-- `generateFormFillAction` (lines 139-157): iterates
`Object.entries(formData)` in insertion order, pushing one statement per
field. -/
def generateFormFillAction : List (String × FormValue) → List String
  | [] => []
  | (selector, value) :: rest =>
      fieldFillStatement selector value :: generateFormFillAction rest

/-- `generateScreenshotAction` (lines 159-161). -/
def generateScreenshotAction (name : String) : String :=
  "cy.screenshot(\x27" ++ name ++ "\x27)"

/-- The file-name derivation of `createTest` (line 64):
`testName.replace(/\s+/g, '_').toLowerCase()` plus the `.cy.js`
suffix. -/
def specFileNameOf (testName : String) : String :=
  jsToLowerCase (replaceWsRuns testName) ++ ".cy.js"

/-- The test-file template of `createTest` (lines 68-74). -/
def testFileContent (testName : String) (testActions : List String) : String :=
  "\n    describe(\x27" ++ testName
    ++ "\x27, () => \x7b\n      it(\x27performs UI testing\x27, () => \x7b\n        "
    ++ String.intercalate "\n        " testActions
    ++ "\n      \x7d)\n    \x7d)\n    "

/-- `createTest` (lines 63-80): derives the spec file path from the
suite name and renders the file content; returns the path (the write
and the `specFiles` push are filesystem bookkeeping outside this
model). -/
def createTest (testName : String) (testActions : List String) :
    String × String :=
  let specFileName := specFileNameOf testName
  let specFilePath := "./cypress/e2e/" ++ specFileName
  (specFilePath, testFileContent testName testActions)

/-- A declarative action, as dispatched by the `if/else if` chain on
`action.type` in `buildTestSuite` (lines 166-178).  The `unknown`
constructor covers every action object whose `type` string is none of
`navigate`, `testElement`, `fillForm`, `screenshot`, `wait`: the chain
has no `else`, so such actions fall through. -/
inductive Action where
  | navigate (url : String)
  | testElement (selector : String) (testType : String) (expectedValue : String)
  | fillForm (formData : List (String × FormValue))
  | screenshot (name : String)
  | wait (milliseconds : Int)
  | unknown (tag : String)
deriving DecidableEq

/-- One iteration of the `for (const action of actions)` loop of
`buildTestSuite` (lines 166-178): the statements pushed for this action
and the updated `testResults` (only `generateElementTest` mutates it or
throws). -/
def buildTestSuiteStep (baseUrl : String) (testResults : List CyResult) :
    Action → Except String (List String × List CyResult)
  | Action.navigate url =>
      Except.ok ([generateNavigationAction baseUrl url], testResults)
  | Action.testElement selector testType expectedValue =>
      match generateElementTest selector testType expectedValue testResults with
      | Except.error e => Except.error e
      | Except.ok (stmt, r) => Except.ok ([stmt], r)
  | Action.fillForm formData =>
      Except.ok (generateFormFillAction formData, testResults)
  | Action.screenshot name =>
      Except.ok ([generateScreenshotAction name], testResults)
  | Action.wait ms =>
      Except.ok (["cy.wait(" ++ toString ms ++ ")"], testResults)
  | Action.unknown _ => Except.ok ([], testResults)

/-- The accumulation loop of `buildTestSuite` (lines 164-178): the
final `testActions` list and `testResults` state, or the first
exception thrown by an iteration (which aborts the loop). -/
def buildTestStatements (baseUrl : String) (testResults : List CyResult) :
    List Action → Except String (List String × List CyResult)
  | [] => Except.ok ([], testResults)
  | a :: rest =>
      match buildTestSuiteStep baseUrl testResults a with
      | Except.error e => Except.error e
      | Except.ok (stmts, r1) =>
          match buildTestStatements baseUrl r1 rest with
          | Except.error e => Except.error e
          | Except.ok (stmtsRest, r2) => Except.ok (stmts ++ stmtsRest, r2)

/-- `buildTestSuite` (lines 163-181): runs the loop, then hands the
collected statements to `createTest`, returning the spec file path. -/
def buildTestSuite (baseUrl suiteName : String) (actions : List Action)
    (testResults : List CyResult) : Except String (String × List CyResult) :=
  match buildTestStatements baseUrl testResults actions with
  | Except.error e => Except.error e
  | Except.ok (stmts, r) => Except.ok ((createTest suiteName stmts).1, r)

/-- The statements one action contributes, as a pure function of the
action: used to state that `buildTestStatements` is exactly the
in-order concatenation of per-action compilations. -/
def compiledStatements (baseUrl : String) : Action → List String
  | Action.navigate url => [generateNavigationAction baseUrl url]
  | Action.testElement selector testType expectedValue =>
      match elementTestAction selector testType expectedValue with
      | Except.ok stmt => [stmt]
      | Except.error _ => []
  | Action.fillForm formData => generateFormFillAction formData
  | Action.screenshot name => [generateScreenshotAction name]
  | Action.wait ms => ["cy.wait(" ++ toString ms ++ ")"]
  | Action.unknown _ => []

/-- The aggregate totals read by the Cypress-variant `generateReport`
(lines 263-265): `totalTests`, `totalPassed`, `totalFailed` of the
runner's result object (each defaulted to 0 by `|| 0`). -/
structure CypressRunTotals where
  totalTests : Nat
  totalPassed : Nat
  totalFailed : Nat
deriving DecidableEq

/-- The pass-rate expression of the Cypress-variant `generateReport`
(line 292): `totalTests > 0 ? Math.round((passedTests / totalTests) * 100) : 0`. -/
def cypressPassRate (t : CypressRunTotals) : Int :=
  if 0 < t.totalTests then
    round (((t.totalPassed : ℚ) / (t.totalTests : ℚ)) * 100)
  else 0

/-! ## Playwright direct-driver variant (`src/unnamed/part_002`) -/

/-- One entry of `this.testResults` pushed by the Playwright-variant
`testElement` (lines 97-104 on success, 108-115 on error): `actual` is
`none` when absent or `null`, `error` is `none` when absent.  The
wall-clock `timestamp` field is outside this model. -/
structure PwResult where
  selector : String
  testType : String
  expected : String
  actual : Option String
  error : Option String
  passed : Bool
deriving DecidableEq

/-- The Playwright page, the external collaborator driven by
`testElement`: each operation either returns a value or raises a
runtime error (element not found, visibility timeout), modelled as
`Except` with the error message. -/
structure Page where
  waitForSelector : String → Except String Unit
  isVisible : String → Except String Bool
  textContent : String → Except String (Option String)
  getAttribute : String → String → Except String (Option String)
  click : String → Except String Unit

/-- The body of the `try` block of the Playwright-variant `testElement`
(lines 69-106): waits for the selector, dispatches on `testType`, and
yields `(result, actualValue)`; any page error or the `default: throw`
escapes as `Except.error`. -/
def testElementBody (page : Page) (selector testType expectedValue : String) :
    Except String (Bool × Option String) := do
  let _ ← page.waitForSelector selector
  match testType with
  | "exists" => do
      let r ← page.isVisible selector
      pure (r, none)
  | "text" => do
      let actualValue ← page.textContent selector
      pure (actualValue == some expectedValue, actualValue)
  | "attribute" => do
      let p := jsSplitEq expectedValue
      let actualValue ← page.getAttribute selector p.1
      pure (match actualValue, p.2 with
            | some a, some v => a == v
            | _, _ => false, actualValue)
  | "clickable" => do
      let _ ← page.click selector
      pure (true, none)
  | _ => Except.error ("Unknown test type: " ++ testType)

/-- The Playwright-variant `testElement` (lines 68-120): on success it
appends one passed/failed entry and returns the boolean outcome; the
`catch` appends one failed entry carrying the error message and returns
`false` instead of propagating. -/
def pwTestElement (page : Page) (selector testType expectedValue : String)
    (testResults : List PwResult) : Bool × List PwResult :=
  match testElementBody page selector testType expectedValue with
  | Except.ok (result, actualValue) =>
      (result, testResults
        ++ [⟨selector, testType, expectedValue, actualValue, none, result⟩])
  | Except.error e =>
      (false, testResults
        ++ [⟨selector, testType, expectedValue, none, some e, false⟩])

/-- The pass-rate expression of the Playwright-variant `generateReport`
(lines 159-160, 185): `passedTests` is the count of entries with
`passed` true, `totalTests` the length of `this.testResults`, and the
rendered value is `Math.round((passedTests / totalTests) * 100)` with
no zero guard.  When `totalTests` is 0 the JS division is `0 / 0 = NaN`
and `Math.round(NaN)` is `NaN`, modelled as `none`. -/
def playwrightPassRate (testResults : List PwResult) : Option Int :=
  let passedTests := (testResults.filter (fun test => test.passed)).length
  let totalTests := testResults.length
  if totalTests = 0 then none
  else some (round (((passedTests : ℚ) / (totalTests : ℚ)) * 100))

/-! ## Screenshot-grouping report (`src/unnamed/part_000`,
`CypressTestAgent.generateReport`, lines 179-222) -/

/-- `path.basename(file)`: the last `/`-separated component. -/
def pathBasename (file : String) : String :=
  (jsSplitChar file '/').getLastD ""

/-- `path.basename(file, '.png')`: the basename with one trailing
`.png` removed (Node keeps the name unchanged when it equals the
extension). -/
def basenameNoPng (file : String) : String :=
  let b := pathBasename file
  if jsEndsWith b ".png" && decide (b ≠ ".png") then strDropRight b 4 else b

/-- `filename.split('-')` of the extension-stripped basename
(lines 190-191). -/
def screenshotParts (file : String) : List String :=
  jsSplitChar (basenameNoPng file) '-'

/-- The viewport-keyed groups of one route: an association list in
insertion order, modelling the JS object `reportData[route]`. -/
abbrev ViewportGroups := List (String × List String)

/-- The grouped report data: routes to viewport groups, in insertion
order, modelling the JS object `reportData`. -/
abbrev ReportData := List (String × ViewportGroups)

/-- `reportData[route][viewport].push(file)` after the two
`if (!...)` initializers (lines 197-205), restricted to one route's
viewport groups: appends to an existing viewport's list or adds the
viewport at the end. -/
def pushAssoc (vg : ViewportGroups) (viewport file : String) : ViewportGroups :=
  match vg with
  | [] => [(viewport, [file])]
  | (v, fs) :: rest =>
      if v = viewport then (v, fs ++ [file]) :: rest
      else (v, fs) :: pushAssoc rest viewport file

/-- `reportData[route][viewport].push(file)` with both `if (!...)`
initializers (lines 197-205): adds the route at the end when missing. -/
def upsertScreenshot (rd : ReportData) (route viewport file : String) :
    ReportData :=
  match rd with
  | [] => [(route, [(viewport, [file])])]
  | (r, vg) :: rest =>
      if r = route then (r, pushAssoc vg viewport file) :: rest
      else (r, vg) :: upsertScreenshot rest route viewport file

/-- The `screenshotFiles.forEach` body (lines 189-207): a file whose
hyphen-split stripped basename has at least two segments is grouped
under `parts[0]` then `parts[1]`; otherwise the report data is left
unchanged. -/
def addScreenshot (rd : ReportData) (file : String) : ReportData :=
  let parts := screenshotParts file
  if 2 ≤ parts.length then
    upsertScreenshot rd (parts.headD "") (parts.getD 1 "") file
  else rd

/-- The grouping phase of `CypressTestAgent.generateReport`
(lines 183-207): filters to `.png` files and folds them into the
grouped report data. -/
def reportDataOf (files : List String) : ReportData :=
  (files.filter (fun file => jsEndsWith file ".png")).foldl addScreenshot []

/-- The files recorded under a given route and viewport (reading
`reportData[route][viewport]`). -/
def lookupGroup : ReportData → String → Option ViewportGroups
  | [], _ => none
  | (r, vg) :: rest, route =>
      if r = route then some vg else lookupGroup rest route

/-- Lookup of one viewport's file list inside a route's groups. -/
def lookupFiles : ViewportGroups → String → Option (List String)
  | [], _ => none
  | (v, fs) :: rest, viewport =>
      if v = viewport then some fs else lookupFiles rest viewport

/-- The file list of `reportData[route][viewport]`, empty when either
key is absent. -/
def groupFiles (rd : ReportData) (route viewport : String) : List String :=
  match lookupGroup rd route with
  | none => []
  | some vg => (lookupFiles vg viewport).getD []

/-- All files appearing in any group of the report data. -/
def allGroupedFiles (rd : ReportData) : List String :=
  rd.flatMap (fun p => p.2.flatMap (fun q => q.2))

/-- The three-action scenario from the spec and the repository's
`runExample`: navigate, assert the heading text, screenshot. -/
def exampleActions : List Action :=
  [Action.navigate "/", Action.testElement "h1" "text" "Example Domain",
   Action.screenshot "homepage"]

/-- The three statements the Cypress compiler emits for
`exampleActions`. -/
def exampleStatements : List String :=
  ["cy.visit(\x27/\x27)",
   "cy.get(\x27h1\x27).should(\x27have.text\x27, \x27Example Domain\x27)",
   "cy.screenshot(\x27homepage\x27)"]

/-- The single result entry `generateElementTest` records while
compiling `exampleActions`. -/
def exampleResults : List CyResult :=
  [⟨"h1", "text", "Example Domain",
    "cy.get(\x27h1\x27).should(\x27have.text\x27, \x27Example Domain\x27)"⟩]

/-- A page whose wait step raises `element not found`, exercising the
`catch` path of the Playwright-variant `testElement`. -/
def stubFailPage : Page where
  waitForSelector := fun _ => Except.error "element not found"
  isVisible := fun _ => Except.ok true
  textContent := fun _ => Except.ok none
  getAttribute := fun _ _ => Except.ok none
  click := fun _ => Except.ok ()

end TestingAgent

/-! ## Theorems -/

namespace TestingAgent

/-- Unfolding of the suite loop on a cons cell. -/
lemma buildTestStatements_cons (baseUrl : String) (testResults : List CyResult)
    (a : Action) (rest : List Action) :
    buildTestStatements baseUrl testResults (a :: rest) =
      match buildTestSuiteStep baseUrl testResults a with
      | Except.error e => Except.error e
      | Except.ok (stmts, r1) =>
          match buildTestStatements baseUrl r1 rest with
          | Except.error e => Except.error e
          | Except.ok (stmtsRest, r2) => Except.ok (stmts ++ stmtsRest, r2) :=
  rfl

/-- C2: every call of the Cypress element-test compiler
`generateElementTest` with an assertion kind outside the recognized set
fails with an error naming the offending kind; the error return carries
no compiled statement, and the `push` after the `switch` never runs, so
`testResults` is left exactly as it was. -/
theorem unsupported_kind_rejected (selector testType expectedValue : String)
    (testResults : List CyResult) (h : testType ∉ supportedTestTypes) :
    generateElementTest selector testType expectedValue testResults =
      Except.error ("Unknown test type: " ++ testType) := by
  simp only [supportedTestTypes, List.mem_cons, List.not_mem_nil, or_false,
    not_or] at h
  obtain ⟨h1, h2, h3, h4, h5, h6, h7, h8⟩ := h
  unfold generateElementTest elementTestAction
  split <;> simp_all

/-- Witness for `unsupported_kind_rejected` at the concrete kind
`hover`. -/
theorem unsupported_kind_rejected_witness :
    "hover" ∉ supportedTestTypes ∧
    generateElementTest "a" "hover" "" [] =
      Except.error ("Unknown test type: " ++ "hover") :=
  ⟨by decide, unsupported_kind_rejected "a" "hover" "" [] (by decide)⟩

/-- C7: the Cypress element-test compiler is a deterministic function
of `(selector, testType, expectedValue)`: the statement text it yields
does not depend on the accumulated `testResults` state, so compiling
the same action twice yields byte-identical text. -/
theorem elementTest_deterministic (selector testType expectedValue : String)
    (r1 r2 : List CyResult) :
    Except.map Prod.fst (generateElementTest selector testType expectedValue r1) =
      Except.map Prod.fst (generateElementTest selector testType expectedValue r2) := by
  unfold generateElementTest
  cases h : elementTestAction selector testType expectedValue <;>
    simp [h, Except.map]

/-- C3: the form-fill compiler emits exactly one statement per field of
the mapping, in the mapping's iteration order, each the per-field
dispatch (check/uncheck for booleans, select for selectors containing
`select`, clear-then-type otherwise); on the spec's example it yields
exactly a check, a select, and a clear-then-type, in that order. -/
theorem formFill_order_and_cases (formData : List (String × FormValue)) :
    generateFormFillAction formData =
      formData.map (fun p => fieldFillStatement p.1 p.2) ∧
    generateFormFillAction
        [("#subscribe", FormValue.bool true),
         ("#country select", FormValue.str "US"),
         ("#name", FormValue.str "Alice")] =
      ["cy.get(\x27#subscribe\x27).check()",
       "cy.get(\x27#country select\x27).select(\x27US\x27)",
       "cy.get(\x27#name\x27).clear().type(\x27Alice\x27)"] := by
  constructor
  · induction formData with
    | nil => rfl
    | cons p rest ih =>
        obtain ⟨s, v⟩ := p
        simp [generateFormFillAction, ih]
  · decide

/-- C8: `createTest` derives the spec file path from the suite name
alone — whitespace runs replaced by underscores, lower-cased, suffixed
`.cy.js` — independently of the statements, so equal suite names always
derive equal file names; `Example Test` maps to
`example_test.cy.js`. -/
theorem specFileName_convention (testName : String) (acts1 acts2 : List String) :
    (createTest testName acts1).1 = (createTest testName acts2).1 ∧
    (createTest testName acts1).1 =
      "./cypress/e2e/" ++ (jsToLowerCase (replaceWsRuns testName) ++ ".cy.js") ∧
    (createTest "Example Test" []).1 = "./cypress/e2e/example_test.cy.js" := by
  exact ⟨rfl, rfl, by decide⟩

/-- C10: the Cypress navigation compiler emits `cy.visit` on the raw
`url` argument verbatim; the `fullUrl` it computes from `baseUrl` is
dead, so the emitted statement is independent of the configured
`baseUrl`. -/
theorem navigation_ignores_baseUrl (baseUrl1 baseUrl2 url : String) :
    generateNavigationAction baseUrl1 url = generateNavigationAction baseUrl2 url ∧
    generateNavigationAction baseUrl1 url = "cy.visit(\x27" ++ url ++ "\x27)" :=
  ⟨rfl, rfl⟩

/-- C1 counterexample: the Playwright-variant report renderer, given an
empty result list (total 0), renders `Math.round(0 / 0 * 100)`, which
is `NaN` (modelled `none`) — not the `0` the claim requires of both
renderers. -/
theorem playwright_passRate_nan_on_empty :
    playwrightPassRate [] = none ∧ playwrightPassRate [] ≠ some 0 :=
  ⟨rfl, by decide⟩

/-- C1 amended: the Cypress-results renderer guards the division —
pass rate 0 when `totalTests` is 0, `round((passed/total)*100)`
otherwise; the Playwright direct-driver renderer has no guard and
reports `NaN` on an empty result list, and `round((passed/total)*100)`
otherwise. -/
theorem passRate_guard_behavior (t : CypressRunTotals) (results : List PwResult) :
    (t.totalTests = 0 → cypressPassRate t = 0) ∧
    (0 < t.totalTests →
      cypressPassRate t =
        round (((t.totalPassed : ℚ) / (t.totalTests : ℚ)) * 100)) ∧
    (results = [] → playwrightPassRate results = none) ∧
    (results ≠ [] →
      playwrightPassRate results =
        some (round ((((results.filter (fun test => test.passed)).length : ℚ) /
          (results.length : ℚ)) * 100))) := by
  refine ⟨?_, ?_, ?_, ?_⟩
  · intro h; simp [cypressPassRate, h]
  · intro h; simp [cypressPassRate, h]
  · intro h; subst h; rfl
  · intro h
    simp only [playwrightPassRate]
    rw [if_neg (by simpa [List.length_eq_zero] using h)]

/-- Witness for `passRate_guard_behavior` at total 0 on both
renderers. -/
theorem passRate_guard_behavior_witness :
    cypressPassRate ⟨0, 0, 0⟩ = 0 ∧ playwrightPassRate [] = none :=
  ⟨(passRate_guard_behavior ⟨0, 0, 0⟩ []).1 rfl,
   (passRate_guard_behavior ⟨0, 0, 0⟩ []).2.2.1 rfl⟩

/-- C6: the Playwright-variant `testElement` appends exactly one result
entry per call, and whenever the page interaction raises a runtime
error the `catch` records a failed entry carrying the error message and
returns `false` instead of propagating the error. -/
theorem pwTestElement_error_recorded (page : Page)
    (selector testType expectedValue : String) (testResults : List PwResult) :
    ((pwTestElement page selector testType expectedValue testResults).2.length =
      testResults.length + 1) ∧
    (∀ e, testElementBody page selector testType expectedValue = Except.error e →
      pwTestElement page selector testType expectedValue testResults =
        (false, testResults
          ++ [⟨selector, testType, expectedValue, none, some e, false⟩])) := by
  constructor
  · unfold pwTestElement
    cases h : testElementBody page selector testType expectedValue with
    | ok p => obtain ⟨b, a⟩ := p; simp
    | error e => simp
  · intro e he
    unfold pwTestElement
    rw [he]

/-- Witness for `pwTestElement_error_recorded` on a page whose wait
step fails with `element not found`. -/
theorem pwTestElement_error_recorded_witness :
    pwTestElement stubFailPage "h1" "text" "Example" [] =
      (false, [⟨"h1", "text", "Example", none, some "element not found", false⟩]) :=
  (pwTestElement_error_recorded stubFailPage "h1" "text" "Example" []).2
    "element not found" rfl

end TestingAgent

namespace TestingAgent

/-- The statements of one successful loop iteration are exactly the
pure per-action compilation. -/
lemma buildTestSuiteStep_statements (baseUrl : String) (testResults : List CyResult)
    (a : Action) (stmts : List String) (r2 : List CyResult)
    (h : buildTestSuiteStep baseUrl testResults a = Except.ok (stmts, r2)) :
    stmts = compiledStatements baseUrl a := by
  cases a with
  | navigate url =>
      simp only [buildTestSuiteStep, Except.ok.injEq, Prod.mk.injEq] at h
      simp [compiledStatements, ← h.1]
  | testElement selector testType expectedValue =>
      simp only [buildTestSuiteStep, generateElementTest] at h
      cases he : elementTestAction selector testType expectedValue with
      | error e => rw [he] at h; simp at h
      | ok stmt =>
          rw [he] at h
          simp only [Except.ok.injEq, Prod.mk.injEq] at h
          simp [compiledStatements, he, ← h.1]
  | fillForm formData =>
      simp only [buildTestSuiteStep, Except.ok.injEq, Prod.mk.injEq] at h
      simp [compiledStatements, ← h.1]
  | screenshot name =>
      simp only [buildTestSuiteStep, Except.ok.injEq, Prod.mk.injEq] at h
      simp [compiledStatements, ← h.1]
  | wait ms =>
      simp only [buildTestSuiteStep, Except.ok.injEq, Prod.mk.injEq] at h
      simp [compiledStatements, ← h.1]
  | unknown tag =>
      simp only [buildTestSuiteStep, Except.ok.injEq, Prod.mk.injEq] at h
      simp [compiledStatements, ← h.1]

/-- C5: whenever the suite-building loop succeeds, its emitted
statement list is exactly the in-order concatenation of each action's
own compiled statements — one contiguous group per source action, never
merged, reordered, or duplicated. -/
theorem buildSuite_preserves_order (baseUrl : String)
    (testResults finalResults : List CyResult) (actions : List Action)
    (stmts : List String)
    (h : buildTestStatements baseUrl testResults actions =
      Except.ok (stmts, finalResults)) :
    stmts = (actions.map (compiledStatements baseUrl)).flatten := by
  induction actions generalizing testResults finalResults stmts with
  | nil =>
      simp only [buildTestStatements, Except.ok.injEq, Prod.mk.injEq] at h
      simp [← h.1]
  | cons a rest ih =>
      rw [buildTestStatements_cons] at h
      cases hstep : buildTestSuiteStep baseUrl testResults a with
      | error e => rw [hstep] at h; simp at h
      | ok p =>
          obtain ⟨ss, r1⟩ := p
          rw [hstep] at h
          dsimp only at h
          cases hrest : buildTestStatements baseUrl r1 rest with
          | error e => rw [hrest] at h; simp at h
          | ok p2 =>
              obtain ⟨ss2, r2⟩ := p2
              rw [hrest] at h
              simp only [Except.ok.injEq, Prod.mk.injEq] at h
              rw [← h.1, List.map_cons, List.flatten_cons,
                buildTestSuiteStep_statements baseUrl testResults a ss r1 hstep,
                ih r1 r2 ss2 hrest]

/-- Witness for `buildSuite_preserves_order` on the spec's three-action
scenario: exactly three statements, in authored order. -/
theorem buildSuite_preserves_order_witness :
    buildTestStatements "https://example.com" [] exampleActions =
      Except.ok (exampleStatements, exampleResults) ∧
    exampleStatements =
      (exampleActions.map (compiledStatements "https://example.com")).flatten :=
  ⟨rfl, buildSuite_preserves_order "https://example.com" [] exampleResults
    exampleActions exampleStatements rfl⟩

/-- C9: an action whose `type` is none of the five recognized tags
contributes no statement and raises no error — the `if/else if` chain
of `buildTestSuite` has no `else`, so the action is silently dropped
and the suite is the same as if it were absent. -/
theorem unknown_actions_dropped (baseUrl tag : String)
    (testResults : List CyResult) (pre post : List Action) :
    buildTestSuiteStep baseUrl testResults (Action.unknown tag) =
      Except.ok ([], testResults) ∧
    buildTestStatements baseUrl testResults (pre ++ Action.unknown tag :: post) =
      buildTestStatements baseUrl testResults (pre ++ post) := by
  refine ⟨rfl, ?_⟩
  induction pre generalizing testResults with
  | nil =>
      simp only [List.nil_append]
      rw [buildTestStatements_cons]
      cases h : buildTestStatements baseUrl testResults post with
      | error e => simp [buildTestSuiteStep, h]
      | ok p => obtain ⟨ss, r2⟩ := p; simp [buildTestSuiteStep, h]
  | cons a pre ih =>
      simp only [List.cons_append]
      rw [buildTestStatements_cons, buildTestStatements_cons]
      cases hstep : buildTestSuiteStep baseUrl testResults a with
      | error e => rfl
      | ok p => obtain ⟨ss, r1⟩ := p; simp [ih r1]

end TestingAgent

namespace TestingAgent

/-- `allGroupedFiles` on a cons cell. -/
lemma allGroupedFiles_cons (r : String) (vg : ViewportGroups) (rest : ReportData) :
    allGroupedFiles ((r, vg) :: rest) =
      vg.flatMap (fun q => q.2) ++ allGroupedFiles rest := by
  simp [allGroupedFiles]

/-- Membership after a `pushAssoc`: any file in the updated viewport
groups is the pushed file or was already there. -/
lemma vgFiles_pushAssoc (vg : ViewportGroups) (viewport file x : String)
    (hx : x ∈ (pushAssoc vg viewport file).flatMap (fun q => q.2)) :
    x = file ∨ x ∈ vg.flatMap (fun q => q.2) := by
  induction vg with
  | nil =>
      simp [pushAssoc] at hx
      exact Or.inl hx
  | cons q rest ih =>
      obtain ⟨v, fs⟩ := q
      simp only [pushAssoc] at hx
      by_cases hv : v = viewport
      · rw [if_pos hv] at hx
        simp only [List.flatMap_cons, List.mem_append] at hx ⊢
        rcases hx with (hx | hx) | hx
        · exact Or.inr (Or.inl hx)
        · exact Or.inl (List.mem_singleton.mp hx)
        · exact Or.inr (Or.inr hx)
      · rw [if_neg hv] at hx
        simp only [List.flatMap_cons, List.mem_append] at hx ⊢
        rcases hx with hx | hx
        · exact Or.inr (Or.inl hx)
        · rcases ih hx with h | h
          · exact Or.inl h
          · exact Or.inr (Or.inr h)

/-- Membership after an `upsertScreenshot`: any grouped file is the
inserted file or was already grouped. -/
lemma mem_allGroupedFiles_upsert (rd : ReportData) (route viewport file x : String)
    (hx : x ∈ allGroupedFiles (upsertScreenshot rd route viewport file)) :
    x = file ∨ x ∈ allGroupedFiles rd := by
  induction rd with
  | nil =>
      simp [upsertScreenshot, allGroupedFiles] at hx
      exact Or.inl hx
  | cons p rest ih =>
      obtain ⟨r, vg⟩ := p
      simp only [upsertScreenshot] at hx
      rw [allGroupedFiles_cons, List.mem_append]
      by_cases hr : r = route
      · rw [if_pos hr, allGroupedFiles_cons] at hx
        rcases List.mem_append.mp hx with hx | hx
        · rcases vgFiles_pushAssoc vg viewport file x hx with h | h
          · exact Or.inl h
          · exact Or.inr (Or.inl h)
        · exact Or.inr (Or.inr hx)
      · rw [if_neg hr, allGroupedFiles_cons] at hx
        rcases List.mem_append.mp hx with hx | hx
        · exact Or.inr (Or.inl hx)
        · rcases ih hx with h | h
          · exact Or.inl h
          · exact Or.inr (Or.inr h)

/-- Membership after one `forEach` iteration: a newly grouped file is
the visited file (which then has at least two hyphen segments) or was
already grouped. -/
lemma mem_allGroupedFiles_add (rd : ReportData) (file x : String)
    (hx : x ∈ allGroupedFiles (addScreenshot rd file)) :
    (x = file ∧ 2 ≤ (screenshotParts file).length) ∨ x ∈ allGroupedFiles rd := by
  simp only [addScreenshot] at hx
  by_cases h : 2 ≤ (screenshotParts file).length
  · rw [if_pos h] at hx
    rcases mem_allGroupedFiles_upsert rd _ _ file x hx with h1 | h1
    · exact Or.inl ⟨h1, h⟩
    · exact Or.inr h1
  · rw [if_neg h] at hx
    exact Or.inr hx

/-- Membership after the whole grouping fold: any grouped file was
grouped before the fold, or is a visited file with at least two hyphen
segments. -/
lemma mem_allGroupedFiles_foldl (files : List String) (rd : ReportData) (x : String)
    (hx : x ∈ allGroupedFiles (files.foldl addScreenshot rd)) :
    x ∈ allGroupedFiles rd ∨ (x ∈ files ∧ 2 ≤ (screenshotParts x).length) := by
  induction files generalizing rd with
  | nil => exact Or.inl hx
  | cons f rest ih =>
      rcases ih (addScreenshot rd f) hx with h | h
      · rcases mem_allGroupedFiles_add rd f x h with ⟨he, hl⟩ | h2
        · exact Or.inr ⟨by simp [he], he ▸ hl⟩
        · exact Or.inl h2
      · exact Or.inr ⟨List.mem_cons_of_mem f h.1, h.2⟩

/-- `pushAssoc` records the pushed file under its viewport key. -/
lemma lookupFiles_pushAssoc_self (vg : ViewportGroups) (viewport file : String) :
    ∃ fs, lookupFiles (pushAssoc vg viewport file) viewport = some fs ∧ file ∈ fs := by
  induction vg with
  | nil => exact ⟨[file], by simp [pushAssoc, lookupFiles], by simp⟩
  | cons q rest ih =>
      obtain ⟨v, fs⟩ := q
      by_cases hv : v = viewport
      · subst hv
        exact ⟨fs ++ [file], by simp [pushAssoc, lookupFiles], by simp⟩
      · obtain ⟨fs2, h1, h2⟩ := ih
        exact ⟨fs2, by simp [pushAssoc, lookupFiles, hv, h1], h2⟩

/-- `pushAssoc` never removes a file from any viewport's list. -/
lemma mem_lookupFiles_pushAssoc (vg : ViewportGroups) (viewport2 file2 viewport x : String)
    (hx : x ∈ (lookupFiles vg viewport).getD []) :
    x ∈ (lookupFiles (pushAssoc vg viewport2 file2) viewport).getD [] := by
  induction vg with
  | nil => simp [lookupFiles] at hx
  | cons q rest ih =>
      obtain ⟨v, fs⟩ := q
      simp only [pushAssoc]
      by_cases hv2 : v = viewport2
      · rw [if_pos hv2]
        by_cases hv : v = viewport
        · subst hv
          simp [lookupFiles] at hx
          simp [lookupFiles]
          exact Or.inl hx
        · simp [lookupFiles, hv] at hx
          simp [lookupFiles, hv]
          exact hx
      · rw [if_neg hv2]
        by_cases hv : v = viewport
        · subst hv
          simp [lookupFiles] at hx
          simp [lookupFiles]
          exact hx
        · simp [lookupFiles, hv] at hx
          simp [lookupFiles, hv]
          exact ih hx

/-- `upsertScreenshot` records the file under its route and viewport
keys. -/
lemma mem_groupFiles_upsert_self (rd : ReportData) (route viewport file : String) :
    file ∈ groupFiles (upsertScreenshot rd route viewport file) route viewport := by
  induction rd with
  | nil => simp [upsertScreenshot, groupFiles, lookupGroup, lookupFiles]
  | cons p rest ih =>
      obtain ⟨r, vg⟩ := p
      simp only [upsertScreenshot]
      by_cases hr : r = route
      · rw [if_pos hr]
        obtain ⟨fs, h1, h2⟩ := lookupFiles_pushAssoc_self vg viewport file
        simp [groupFiles, lookupGroup, hr, h1]
        exact h2
      · rw [if_neg hr]
        simpa [groupFiles, lookupGroup, hr] using ih

/-- `upsertScreenshot` never removes a file from any group. -/
lemma mem_groupFiles_upsert (rd : ReportData)
    (route2 viewport2 file2 route viewport x : String)
    (hx : x ∈ groupFiles rd route viewport) :
    x ∈ groupFiles (upsertScreenshot rd route2 viewport2 file2) route viewport := by
  induction rd with
  | nil => simp [groupFiles, lookupGroup] at hx
  | cons p rest ih =>
      obtain ⟨r, vg⟩ := p
      simp only [upsertScreenshot]
      by_cases hr2 : r = route2
      · rw [if_pos hr2]
        by_cases hr : r = route
        · subst hr
          simp [groupFiles, lookupGroup] at hx
          simp [groupFiles, lookupGroup]
          exact mem_lookupFiles_pushAssoc vg viewport2 file2 viewport x hx
        · simp [groupFiles, lookupGroup, hr] at hx
          simp [groupFiles, lookupGroup, hr]
          exact hx
      · rw [if_neg hr2]
        by_cases hr : r = route
        · subst hr
          simp [groupFiles, lookupGroup] at hx
          simp [groupFiles, lookupGroup]
          exact hx
        · simp [groupFiles, lookupGroup, hr] at hx
          simp [groupFiles, lookupGroup, hr]
          exact ih hx

/-- One `forEach` iteration never removes a file from any group. -/
lemma mem_groupFiles_add (rd : ReportData) (file route viewport x : String)
    (hx : x ∈ groupFiles rd route viewport) :
    x ∈ groupFiles (addScreenshot rd file) route viewport := by
  simp only [addScreenshot]
  by_cases h : 2 ≤ (screenshotParts file).length
  · rw [if_pos h]
    exact mem_groupFiles_upsert rd _ _ file route viewport x hx
  · rw [if_neg h]
    exact hx

/-- The grouping fold never removes a file from any group. -/
lemma mem_groupFiles_foldl_mono (files : List String) (rd : ReportData)
    (route viewport x : String) (hx : x ∈ groupFiles rd route viewport) :
    x ∈ groupFiles (files.foldl addScreenshot rd) route viewport := by
  induction files generalizing rd with
  | nil => exact hx
  | cons f rest ih =>
      exact ih (addScreenshot rd f) (mem_groupFiles_add rd f route viewport x hx)

/-- Every visited file with at least two hyphen segments ends up in the
group keyed by its first two segments. -/
lemma mem_groupFiles_foldl (files : List String) (rd : ReportData) (f : String)
    (hf : f ∈ files) (hlen : 2 ≤ (screenshotParts f).length) :
    f ∈ groupFiles (files.foldl addScreenshot rd)
        ((screenshotParts f).headD "") ((screenshotParts f).getD 1 "") := by
  induction files generalizing rd with
  | nil => cases hf
  | cons g rest ih =>
      rw [List.foldl_cons]
      rcases List.mem_cons.mp hf with hg | hg
      · subst hg
        apply mem_groupFiles_foldl_mono
        simp only [addScreenshot]
        rw [if_pos hlen]
        exact mem_groupFiles_upsert_self rd _ _ f
      · exact ih (addScreenshot rd g) hg

/-- C4: in the screenshot-grouping report, every `.png` file whose
extension-stripped basename has at least two hyphen-delimited segments
is grouped under its first segment (route) then its second (viewport);
every file with fewer than two segments appears in no group (and the
grouping, being total, raises no error for it); the spec's example
groups the two well-formed files and excludes `bad.png`. -/
theorem screenshot_grouping (files : List String) (f : String) :
    (f ∈ files → (screenshotParts f).length < 2 →
      f ∉ allGroupedFiles (reportDataOf files)) ∧
    (f ∈ files → jsEndsWith f ".png" = true →
      2 ≤ (screenshotParts f).length →
      f ∈ groupFiles (reportDataOf files)
          ((screenshotParts f).headD "") ((screenshotParts f).getD 1 "")) ∧
    reportDataOf ["home-desktop-a.png", "home-mobile-b.png", "bad.png"] =
      [("home", [("desktop", ["home-desktop-a.png"]),
                 ("mobile", ["home-mobile-b.png"])])] := by
  refine ⟨?_, ?_, by decide⟩
  · intro _ hlt hmem
    rcases mem_allGroupedFiles_foldl _ _ _ hmem with h | ⟨hmem2, hlen2⟩
    · simp [allGroupedFiles] at h
    · omega
  · intro hf hpng hlen
    exact mem_groupFiles_foldl _ _ _ (List.mem_filter.mpr ⟨hf, hpng⟩) hlen

/-- Witness for `screenshot_grouping`: `bad.png` appears in no group of
the example report. -/
theorem screenshot_grouping_witness :
    "bad.png" ∉ allGroupedFiles (reportDataOf
      ["home-desktop-a.png", "home-mobile-b.png", "bad.png"]) :=
  (screenshot_grouping ["home-desktop-a.png", "home-mobile-b.png", "bad.png"]
    "bad.png").1 (by decide) (by decide)

end TestingAgent
